import Mathlib

set_option maxHeartbeats 1000000

/-!
Shallow embedding of the mootools-core CSS query module (src/Addons/Dom.js):
the selector token matcher, the element query engine (Element.getElements,
Element.getElementById, Element.getElement, Element.getElementsBySelector),
the result-set filters (Elements.filterById, filterByClassName,
filterByTagName, filterByAttribute) and the bulk binder Elements.action.

The page document is modelled as the list of its element nodes in document
(pre-order) order; an element is identified by its path, the child-index
sequence from the document root down to it.  The browser traversal
primitives the source calls into (getElementsByTagName, getElementById,
getAttribute, event registration) are modelled over this representation.
-/

/-- A path identifies an element node by its position in the document tree:
the child-index sequence from the document root down to the node.  The
document root itself is the empty path. -/
abbrev DPath := List Nat

/-- One element node of a page document: its position path, tag name, id
property, className string, and attribute list. -/
structure DomNode where
  path : DPath
  tag : String
  id : String
  className : String
  attrs : List (String × String)

/-- A page document: its element nodes listed in document (pre-order)
order.  The document root (the document object itself) is not listed; it is
the empty path. -/
abbrev Doc := List DomNode

/-- JS regex word character class \w: ASCII letters, digits, underscore. -/
def isWordChar (c : Char) : Bool := c.isAlphanum || c == '_'

/-- Character class [\w_-] used for the id and class parts of the selector
regex of Dom.js line 119. -/
def isIdChar (c : Char) : Bool := isWordChar c || c == '-'

/-- The double-quote character (written by code to avoid a quote literal). -/
def quoteD : Char := Char.ofNat 34

/-- The single-quote character (written by code to avoid a quote literal). -/
def quoteS : Char := Char.ofNat 39

/-- Splits a character list at every character satisfying p, keeping empty
pieces: the behavior of JavaScript String.split on a one-character
separator.  The second argument accumulates the current piece reversed. -/
def splitBy (p : Char → Bool) : List Char → List Char → List (List Char)
  | [], cur => [cur.reverse]
  | c :: cs, cur => if p c then cur.reverse :: splitBy p cs [] else splitBy p cs (c :: cur)

/-- JavaScript s.split(c) for a single-character separator. -/
def splitOnChar (c : Char) (s : String) : List String :=
  (splitBy (fun x => x == c) s.toList []).map List.asString

/-- The maximal whitespace-delimited tokens of a string, empties dropped. -/
def wsTokens (s : String) : List String :=
  ((splitBy Char.isWhitespace s.toList []).filter (fun l => !l.isEmpty)).map List.asString

/-- Modelled from the spec: String.prototype.clean from String.js (a
dependency of Dom.js not under src/) — spec §4.2 step 1, "Normalize
(trim/collapse whitespace)": leading and trailing whitespace is removed and
internal whitespace runs collapse to single spaces. -/
def clean (s : String) : String := String.intercalate " " (wsTokens s)

/-- The parts of one simple selector token, as extracted by the regex of
Dom.js line 119 and associated to the keys tag, id, class, attribute,
operator, value on line 122.  The tag is already defaulted to "*" when the
tag group matched the empty string (line 121). -/
structure Clause where
  tag : String
  id : Option String
  cls : Option String
  attr : Option String
  op : Option String
  value : Option String
deriving DecidableEq

/-- Consumes one optional leading quote character: the regex fragments
["']? around the attribute name and value in Dom.js line 119. -/
def skipQuote : List Char → List Char
  | c :: r => if c == quoteD || c == quoteS then r else c :: r
  | [] => []

/-- The operator alternatives ([\*\^\$]?=) of the selector regex. -/
def opHead : List Char → Option (String × List Char)
  | '=' :: r => some ("=", r)
  | '*' :: '=' :: r => some ("*=", r)
  | '^' :: '=' :: r => some ("^=", r)
  | '$' :: '=' :: r => some ("$=", r)
  | _ => none

/-- The bracketed attribute part of the selector regex of Dom.js line 119,
after the opening bracket has been consumed:
["']?(\w+)["']?(?:([\*\^\$]?=)["']?(\w*)["']?)?\] .
Returns the attribute name, the operator and value when present, and the
rest of the input after the closing bracket. -/
def parseBracket (r : List Char) : Option (String × Option String × Option String × List Char) :=
  let r1 := skipQuote r
  let att := r1.takeWhile isWordChar
  let r2 := r1.dropWhile isWordChar
  if att.isEmpty then none
  else
    let r3 := skipQuote r2
    match opHead r3 with
    | some (op, r4) =>
      let r5 := skipQuote r4
      let v := r5.takeWhile isWordChar
      let r6 := skipQuote (r5.dropWhile isWordChar)
      match r6 with
      | ']' :: rest => some (att.asString, some op, some v.asString, rest)
      | _ => none
    | none =>
      match r3 with
      | ']' :: rest => some (att.asString, none, none, rest)
      | _ => none

/-- The tag group (\w*|\*) of the selector regex, defaulted to "*" when it
matched the empty string (Dom.js line 121). -/
def defTag (l : List Char) : String := if l.isEmpty then "*" else l.asString

/-- The selector token matcher of Dom.js line 119: a deterministic rendering
of the anchored regex
^(\w*|\*)(?:#([\w_-]+)|\.([\w_-]+))?(?:\[["']?(\w+)["']?(?:([\*\^\$]?=)["']?(\w*)["']?)?\])?$ .
Each alternative and option of the regex is decided by the next input
character, so maximal munch is exact; a token that the regex rejects yields
none, exactly the tokens Dom.js line 120 skips. -/
def parseToken (sel : String) : Option Clause :=
  let cs := sel.toList
  let tagRest : List Char × List Char :=
    match cs with
    | '*' :: rest => (['*'], rest)
    | _ => (cs.takeWhile isWordChar, cs.dropWhile isWordChar)
  let idcls : Option (Option String × Option String × List Char) :=
    match tagRest.2 with
    | '#' :: rest =>
      let ic := rest.takeWhile isIdChar
      if ic.isEmpty then none else some (some ic.asString, none, rest.dropWhile isIdChar)
    | '.' :: rest =>
      let cc := rest.takeWhile isIdChar
      if cc.isEmpty then none else some (none, some cc.asString, rest.dropWhile isIdChar)
    | _ => some (none, none, tagRest.2)
  match idcls with
  | none => none
  | some (idO, clsO, r2) =>
    match r2 with
    | '[' :: rest =>
      match parseBracket rest with
      | some (att, opO, vO, r3) =>
        if r3.isEmpty then
          some { tag := defTag tagRest.1, id := idO, cls := clsO,
                 attr := some att, op := opO, value := vO }
        else none
      | none => none
    | [] =>
      some { tag := defTag tagRest.1, id := idO, cls := clsO,
             attr := none, op := none, value := none }
    | _ => none

/-- The node of the document at a given path, when one exists. -/
def nodeAt (doc : Doc) (p : DPath) : Option DomNode :=
  doc.find? (fun n => n.path == p)

/-- Modelled from the spec: the browser tag read backing Element getTag
(Element.js, not under src/) — the element tag name; "" off the document. -/
def tagAt (doc : Doc) (p : DPath) : String :=
  match nodeAt doc p with
  | some n => n.tag
  | none => ""

/-- The id property of an element ("" when it has none), as read by
Elements.filterById via el.id. -/
def idAt (doc : Doc) (p : DPath) : String :=
  match nodeAt doc p with
  | some n => n.id
  | none => ""

/-- The className string of an element ("" when it has none). -/
def classNameAt (doc : Doc) (p : DPath) : String :=
  match nodeAt doc p with
  | some n => n.className
  | none => ""

/-- Browser primitive el.getAttribute(name): the attribute value, or none
when the element does not carry the attribute. -/
def getAttributeAt (doc : Doc) (p : DPath) (name : String) : Option String :=
  match nodeAt doc p with
  | some n => n.attrs.lookup name
  | none => none

/-- Browser primitive el.getElementsByTagName(tag): every proper descendant
of the element at p carrying the tag, in document order; "*" matches every
tag. -/
def getElementsByTagName (doc : Doc) (p : DPath) (tag : String) : List DPath :=
  (doc.filter (fun n =>
    p.isPrefixOf n.path && !(n.path == p) && (tag == "*" || n.tag == tag))).map
      (fun n => n.path)

/-- Browser primitive document.getElementById(id): the first element in
document order whose id matches, when any does. -/
def documentGetElementById (doc : Doc) (id : String) : Option DPath :=
  (doc.find? (fun n => n.id == id)).map (fun n => n.path)

/-- The parent walk of Element.getElementById (Dom.js lines 156-158) on
reversed paths: starting from a (reversed) path, does the chain obtained by
repeatedly dropping the innermost step reach the (reversed) self path before
running past the document root? -/
def revChain (selfR : List Nat) : List Nat → Bool
  | [] => [] == selfR
  | x :: rest => (x :: rest) == selfR || revChain selfR rest

/-- Does the parent chain starting at p (p itself included) contain self? -/
def chainHits (self p : DPath) : Bool := revChain self.reverse p.reverse

/-- Element.getElementById (Dom.js lines 153-160): a document-wide id lookup
(document.getElementById, line 154) followed by the parent walk of lines
156-158, which accepts the found element only when walking up from its
parent reaches self before running past the root. -/
def getElementByIdIn (doc : Doc) (self : DPath) (id : String) : Option DPath :=
  match documentGetElementById doc id with
  | none => none
  | some el => if chainHits self el.dropLast then some el else none

/-- Elements.filterById (Dom.js lines 254-260): pushes onto a fresh array
each element of the set whose id property equals the argument. -/
def filterById (doc : Doc) (els : List DPath) (id : String) : List DPath :=
  els.foldl (fun found el => if idAt doc el == id then found ++ [el] else found) []

/-- Modelled from the spec: Element hasClass (Element.js, not under src/) —
spec §4.2 step 4(c): exact token membership in the space-separated class
list of the element. -/
def hasClass (doc : Doc) (el : DPath) (className : String) : Bool :=
  (wsTokens (classNameAt doc el)).contains className

/-- Elements.filterByClassName (Dom.js lines 262-268): pushes onto a fresh
array each element of the set carrying the class. -/
def filterByClassName (doc : Doc) (els : List DPath) (className : String) : List DPath :=
  els.foldl (fun found el => if hasClass doc el className then found ++ [el] else found) []

/-- Elements.filterByTagName (Dom.js lines 270-276): extends a fresh array,
for each element of the set in order, with all of that element's descendants
of the given tag. -/
def filterByTagName (doc : Doc) (els : List DPath) (tagName : String) : List DPath :=
  els.foldl (fun found el => found ++ getElementsByTagName doc el tagName) []

/-- Modelled from the spec: String.prototype.test from String.js (a
dependency not under src/) builds a RegExp from its argument and tests it
against the string.  Only the restricted pattern forms that
Elements.filterByAttribute builds are modelled: a literal of word
characters, optionally anchored by a leading caret or a trailing dollar;
per spec §4.2 these mean contains / starts-with / ends-with. -/
def jsTest (str pat : String) : Bool :=
  if pat.toList.head? = some '^' then pat.toList.tail.isPrefixOf str.toList
  else if pat.toList.getLast? = some '$' then pat.toList.dropLast.isSuffixOf str.toList
  else str.toList.tails.any (fun t => pat.toList.isPrefixOf t)

/-- The per-element predicate of Elements.filterByAttribute (Dom.js lines
280-291): an absent attribute, like a falsy (empty) one, never passes (line
282); no operator passes any remaining element (line 283); otherwise the
switch of lines 285-290 dispatches on the operator, the unlisted operators
falling through to no match. -/
def attPasses (doc : Doc) (name value : String) (operator : Option String) (el : DPath) : Bool :=
  match getAttributeAt doc el name with
  | none => false
  | some att =>
    if att == "" then false
    else
      match operator with
      | none => true
      | some op =>
        if op = "*=" then jsTest att value
        else if op = "=" then att == value
        else if op = "^=" then jsTest att ("^" ++ value)
        else if op = "$=" then jsTest att (value ++ "$")
        else false

/-- Elements.filterByAttribute (Dom.js lines 278-294): pushes onto a fresh
array each element of the set passing the attribute predicate. -/
def filterByAttribute (doc : Doc) (els : List DPath) (name value : String)
    (operator : Option String) : List DPath :=
  els.foldl (fun found el => if attPasses doc name value operator el then found ++ [el] else found) []

/-- The class and attribute narrowing applied at the end of each token of
Element.getElements (Dom.js lines 135-136): filterByClassName when the
clause has a class, then filterByAttribute when it has an attribute.  When
the clause carries an attribute but no operator its value group is absent;
the value argument is then unread by filterByAttribute, and is passed as ""
here. -/
def applyClassAttr (doc : Doc) (b : Clause) (f : List DPath) : List DPath :=
  let f1 := match b.cls with
    | some c => filterByClassName doc f c
    | none => f
  match b.attr with
  | some a => filterByAttribute doc f1 a (b.value.getD "") b.op
  | none => f1

/-- The body of the per-token closure of Element.getElements (Dom.js lines
118-138): a token its regex rejects leaves the accumulated set untouched
(line 120); the first token resolves by scoped id lookup (lines 124-127,
with the early return of line 126 on a missing element or a tag mismatch)
or by tag collection (line 129); every later token re-expands by tag and
then filters by id when present (lines 132-133); finally class and
attribute filters apply (lines 135-136). -/
def processToken (doc : Doc) (self : DPath) (filters : List DPath) (i : Nat) (sel : String) :
    List DPath :=
  match parseToken sel with
  | none => filters
  | some b =>
    if i = 0 then
      match b.id with
      | some pid =>
        match getElementByIdIn doc self pid with
        | none => filters
        | some el =>
          if b.tag ≠ "*" ∧ tagAt doc el ≠ b.tag then filters
          else applyClassAttr doc b [el]
      | none => applyClassAttr doc b (getElementsByTagName doc self b.tag)
    else
      let f := filterByTagName doc filters b.tag
      applyClassAttr doc b (match b.id with
        | some pid => filterById doc f pid
        | none => f)

/-- Element.getElements (Dom.js lines 116-143): the cleaned selector is
split on spaces and each token is folded through processToken; the extension
loop of lines 139-141 does not change the set. -/
def getElements (doc : Doc) (self : DPath) (selector : String) : List DPath :=
  ((splitOnChar ' ' (clean selector)).enum).foldl
    (fun filters is => processToken doc self filters is.1 is.2) []

/-- Element.getElementsBySelector (Dom.js lines 178-184): the selector is
split on commas and the getElements results of the parts extend one result
array in order. -/
def getElementsBySelector (doc : Doc) (self : DPath) (selector : String) : List DPath :=
  (splitOnChar ',' selector).foldl (fun els sel => els ++ getElements doc self sel) []

/-- Element.getElement (Dom.js lines 168-170): the element at index 0 of
getElementsBySelector, none when there is none. -/
def getElement (doc : Doc) (self : DPath) (selector : String) : Option DPath :=
  (getElementsBySelector doc self selector).head?

/-- The observable handler state of one element, for Elements.action:
directly assigned handler properties (el[action] = fn, looked up
first-binding-wins so that a later assignment shadows an earlier one),
listeners registered through addEvent (accumulating), and the initialize
invocations the element received, in order.  Handlers are opaque and
identified by numbers. -/
structure ElemState where
  props : List (String × Nat)
  listeners : List (String × Nat)
  initRuns : List Nat
deriving DecidableEq

/-- Modelled from the spec: Element.addEvent (Element.js, not under src/) —
spec §4.3: registers an additional listener for the event; listeners
accumulate and are never overwritten. -/
def addEvent (st : ElemState) (evt : String) (f : Nat) : ElemState :=
  { st with listeners := st.listeners ++ [(evt, f)] }

/-- The test of Dom.js line 246, action.test('^on[\w]{1,}'): does the key
start with "on" followed by at least one word character? -/
def testOnPattern (k : String) : Bool :=
  match k.toList with
  | 'o' :: 'n' :: c :: _ => isWordChar c
  | _ => false

/-- The test of Dom.js line 247, action.test('([\w-]{1,})event$'): when the
key ends in "event" with at least one word-or-dash character before it, the
captured group — the maximal run of word-or-dash characters right before
the final "event" — names the event to register. -/
def eventCapture (k : String) : Option String :=
  let cs := k.toList
  if ['e', 'v', 'e', 'n', 't'].isSuffixOf cs then
    let body := cs.take (cs.length - 5)
    let cap := (body.reverse.takeWhile isIdChar).reverse
    if cap.isEmpty then none else some cap.asString
  else none

/-- The per-key dispatch of the for-in loop of Elements.action (Dom.js
lines 244-248): a key matching the on-pattern is assigned as a direct
property (line 246), otherwise a key matching the event-pattern registers a
listener for its captured event name (line 247), and any other key does
nothing. -/
def actionKeyStep (s : ElemState) (kv : String × Nat) : ElemState :=
  if testOnPattern kv.1 then { s with props := (kv.1, kv.2) :: s.props }
  else
    match eventCapture kv.1 with
    | some e => addEvent s e kv.2
    | none => s

/-- The per-element body of Elements.action (Dom.js lines 241-249): the
initialize handler, when the actions object has one, is invoked once on the
element (line 243); then every key of the object is dispatched in insertion
order through actionKeyStep. -/
def actionStep (acts : List (String × Nat)) (st : ElemState) : ElemState :=
  let st0 := match acts.lookup "initialize" with
    | some f => { st with initRuns := st.initRuns ++ [f] }
    | none => st
  acts.foldl actionKeyStep st0

/-- Elements.action (Dom.js lines 240-250): applies the per-element body to
each element of the set; element states are independent. -/
def actionAll (acts : List (String × Nat)) (sts : List ElemState) : List ElemState :=
  sts.map (actionStep acts)

/-- The entries of a handlers object whose key matches the on-pattern of
Dom.js line 246: exactly the keys that become direct property assignments. -/
def onAssignments (acts : List (String × Nat)) : List (String × Nat) :=
  acts.filter (fun kv => testOnPattern kv.1)

/-- The listener registrations a handlers object produces through Dom.js
line 247: for every key that fails the on-pattern and matches the
event-pattern, the captured event name paired with its handler, in
insertion order. -/
def eventRegistrations (acts : List (String × Nat)) : List (String × Nat) :=
  acts.filterMap (fun kv =>
    if testOnPattern kv.1 then none
    else (eventCapture kv.1).map (fun e => (e, kv.2)))

/-- The initialize invocations one action call performs on each element
(Dom.js line 243): one when the handlers object carries an initialize key,
none otherwise. -/
def initInvocations (acts : List (String × Nat)) : List Nat :=
  match acts.lookup "initialize" with
  | some f => [f]
  | none => []

/-- An array store: a heap of result-set arrays addressed by index, used to
state that the filter operations allocate a fresh array (var found = [] in
Dom.js lines 255, 263, 271, 279) and leave the receiver array untouched. -/
abbrev ArrStore := List (List DPath)

/-- Elements.filterById over the array store: reads the receiver array,
builds the filtered array fresh, allocates it at a new index. -/
def filterByIdH (doc : Doc) (st : ArrStore) (r : Nat) (id : String) : ArrStore × Nat :=
  (st ++ [filterById doc (st.getD r []) id], st.length)

/-- Elements.filterByClassName over the array store. -/
def filterByClassNameH (doc : Doc) (st : ArrStore) (r : Nat) (className : String) :
    ArrStore × Nat :=
  (st ++ [filterByClassName doc (st.getD r []) className], st.length)

/-- Elements.filterByTagName over the array store. -/
def filterByTagNameH (doc : Doc) (st : ArrStore) (r : Nat) (tagName : String) :
    ArrStore × Nat :=
  (st ++ [filterByTagName doc (st.getD r []) tagName], st.length)

/-- Elements.filterByAttribute over the array store. -/
def filterByAttributeH (doc : Doc) (st : ArrStore) (r : Nat) (name value : String)
    (operator : Option String) : ArrStore × Nat :=
  (st ++ [filterByAttribute doc (st.getD r []) name value operator], st.length)

example : parseToken "div" =
    some { tag := "div", id := none, cls := none, attr := none, op := none, value := none } := by
  decide

example : parseToken "a[bad" = none := by decide

example : parseToken "a[href^=http]" =
    some { tag := "a", id := none, cls := none, attr := some "href", op := some "^=",
           value := some "http" } := by
  decide

example : parseToken "div#x" =
    some { tag := "div", id := some "x", cls := none, attr := none, op := none,
           value := none } := by
  decide

example : parseToken "#myElement" =
    some { tag := "*", id := some "myElement", cls := none, attr := none, op := none,
           value := none } := by
  decide

example : parseToken "a.myClass" =
    some { tag := "a", id := none, cls := some "myClass", attr := none, op := none,
           value := none } := by
  decide

/-- A small concrete document: a div with id x containing an anchor with an
href attribute, and a sibling paragraph. -/
def wDoc : Doc := [
  { path := [0], tag := "div", id := "x", className := "", attrs := [] },
  { path := [0, 0], tag := "a", id := "", className := "", attrs := [("href", "https")] },
  { path := [1], tag := "p", id := "", className := "", attrs := [] }]

/-- A concrete document with one div nested inside another. -/
def dDoc : Doc := [
  { path := [0], tag := "div", id := "", className := "", attrs := [] },
  { path := [0, 0], tag := "div", id := "", className := "", attrs := [] }]

/-- A concrete document whose single paragraph carries an attribute set to
the empty string. -/
def aDoc : Doc := [
  { path := [0], tag := "p", id := "", className := "", attrs := [("data", "")] }]

/-- A concrete document with a single paragraph. -/
def dupDoc : Doc := [
  { path := [0], tag := "p", id := "", className := "", attrs := [] }]

/-- The empty document. -/
def docEmpty : Doc := []

example : getElements wDoc [] "div" = [[0]] := by decide

example : getElementsBySelector wDoc [] "div a[bad" = [[0]] := by decide

example : getElements wDoc [] "div a" = [[0, 0]] := by decide

example : getElements wDoc [] "div#x a[href^=https]" = [[0, 0]] := by decide

example : getElement wDoc [] "p" = some [1] := by decide

example : getElementsBySelector wDoc [] "p,div" = [[1], [0]] := by decide

example : getElements dDoc [] "div" = [[0], [0, 0]] := by decide

example : filterByTagName dDoc [[0], [0, 0]] "div" = [[0, 0]] := by decide

example : filterByAttribute aDoc [[0]] "data" "" (some "=") = [] := by decide

example : getElementByIdIn wDoc [] "x" = some [0] := by decide

example : getElementByIdIn wDoc [1] "x" = none := by decide

/-- A push loop over a set — the this.each / found.push shape shared by the
three filtering operations of Elements — builds the filter of the set. -/
theorem foldl_push_filter {α : Type} (p : α → Bool) :
    ∀ (l acc : List α),
      l.foldl (fun f a => if p a then f ++ [a] else f) acc = acc ++ l.filter p
  | [], acc => by simp
  | a :: l, acc => by
    simp only [List.foldl_cons, List.filter_cons]
    by_cases h : p a = true
    · rw [if_pos h, if_pos h, foldl_push_filter p l (acc ++ [a]), List.append_assoc,
        List.singleton_append]
    · rw [if_neg h, if_neg h, foldl_push_filter p l acc]

/-- An extend loop over a set — the found.extend shape of filterByTagName
and of getElementsBySelector — concatenates the images of the elements. -/
theorem foldl_append_flatten {α β : Type} (g : α → List β) :
    ∀ (l : List α) (acc : List β),
      l.foldl (fun f a => f ++ g a) acc = acc ++ (l.map g).flatten
  | [], acc => by simp
  | a :: l, acc => by
    simp only [List.foldl_cons, List.map_cons, List.flatten_cons]
    rw [foldl_append_flatten g l (acc ++ g a)]
    simp

theorem filterById_eq_filter (doc : Doc) (els : List DPath) (id : String) :
    filterById doc els id = els.filter (fun el => idAt doc el == id) := by
  unfold filterById
  rw [foldl_push_filter, List.nil_append]

theorem filterByClassName_eq_filter (doc : Doc) (els : List DPath) (className : String) :
    filterByClassName doc els className = els.filter (fun el => hasClass doc el className) := by
  unfold filterByClassName
  rw [foldl_push_filter, List.nil_append]

theorem filterByAttribute_eq_filter (doc : Doc) (els : List DPath) (name value : String)
    (operator : Option String) :
    filterByAttribute doc els name value operator
      = els.filter (attPasses doc name value operator) := by
  unfold filterByAttribute
  rw [foldl_push_filter, List.nil_append]

theorem filterByTagName_eq_flatten (doc : Doc) (els : List DPath) (tagName : String) :
    filterByTagName doc els tagName
      = (els.map (fun el => getElementsByTagName doc el tagName)).flatten := by
  unfold filterByTagName
  rw [foldl_append_flatten, List.nil_append]

theorem mem_filterByAttribute (doc : Doc) (els : List DPath) (name value : String)
    (operator : Option String) (el : DPath) :
    el ∈ filterByAttribute doc els name value operator
      ↔ el ∈ els ∧ attPasses doc name value operator el = true := by
  rw [filterByAttribute_eq_filter, List.mem_filter]

theorem word_head_ne_caret {l : List Char} (hw : l.all isWordChar = true) :
    l.head? ≠ some '^' := by
  intro h
  exact absurd (List.all_eq_true.mp hw '^' (List.mem_of_mem_head? h)) (by decide)

theorem word_getLast_ne_dollar {l : List Char} (hw : l.all isWordChar = true) :
    l.getLast? ≠ some '$' := by
  intro h
  exact absurd (List.all_eq_true.mp hw '$' (List.mem_of_mem_getLast? h)) (by decide)

/-- JavaScript regex search over the whole string: the pattern matches
somewhere exactly when it is an infix. -/
theorem tails_any_isPrefixOf (p s : List Char) :
    (s.tails.any fun t => p.isPrefixOf t) = true ↔ p <:+: s := by
  rw [List.any_eq_true]
  constructor
  · rintro ⟨t, ht, hp⟩
    exact List.infix_iff_prefix_suffix.mpr
      ⟨t, List.isPrefixOf_iff_prefix.mp hp, (List.mem_tails _ _).mp ht⟩
  · intro h
    obtain ⟨t, hp, hs⟩ := List.infix_iff_prefix_suffix.mp h
    exact ⟨t, (List.mem_tails _ _).mpr hs, List.isPrefixOf_iff_prefix.mpr hp⟩

/-- On an unanchored word-character pattern, the modelled regex test is
substring containment. -/
theorem jsTest_plain (att value : String) (hw : value.toList.all isWordChar = true) :
    jsTest att value = true ↔ value.toList <:+: att.toList := by
  unfold jsTest
  rw [if_neg (word_head_ne_caret hw), if_neg (word_getLast_ne_dollar hw)]
  exact tails_any_isPrefixOf _ _

/-- On a caret-anchored word-character pattern, the modelled regex test is
the starts-with test. -/
theorem jsTest_caret (att value : String) :
    jsTest att ("^" ++ value) = true ↔ value.toList <+: att.toList := by
  have hl : ("^" ++ value).toList = '^' :: value.toList := by
    show ("^" ++ value).data = '^' :: value.data
    rw [String.data_append]
    rfl
  have hc : ('^' :: value.toList).head? = some '^' := rfl
  unfold jsTest
  rw [hl, if_pos hc, List.tail_cons]
  exact List.isPrefixOf_iff_prefix

/-- On a dollar-anchored word-character pattern, the modelled regex test is
the ends-with test. -/
theorem jsTest_dollar (att value : String) (hw : value.toList.all isWordChar = true) :
    jsTest att (value ++ "$") = true ↔ value.toList <:+ att.toList := by
  have hl : (value ++ "$").toList = value.toList ++ ['$'] := by
    show (value ++ "$").data = value.data ++ ['$']
    rw [String.data_append]
  have hhead : ((value ++ "$").toList).head? ≠ some '^' := by
    rw [hl]
    cases hv : value.toList with
    | nil => decide
    | cons c cs =>
      intro h
      simp only [List.cons_append, List.head?_cons, Option.some.injEq] at h
      rw [hv] at hw
      simp only [List.all_cons, Bool.and_eq_true] at hw
      rw [h] at hw
      exact absurd hw.1 (by decide)
  unfold jsTest
  rw [if_neg hhead, hl, if_pos (List.getLast?_concat _), List.dropLast_concat]
  exact List.isSuffixOf_iff_suffix

theorem attPasses_none_iff (doc : Doc) (name value : String) (el : DPath) :
    attPasses doc name value none el = true ↔
      ∃ a, getAttributeAt doc el name = some a ∧ a ≠ "" := by
  unfold attPasses
  cases hatt : getAttributeAt doc el name with
  | none => simp
  | some a =>
    by_cases ha : a = ""
    · subst ha; simp
    · simp [ha]

theorem attPasses_eq_iff (doc : Doc) (name value : String) (el : DPath) :
    attPasses doc name value (some "=") el = true ↔
      getAttributeAt doc el name = some value ∧ value ≠ "" := by
  unfold attPasses
  cases hatt : getAttributeAt doc el name with
  | none => simp
  | some a =>
    by_cases ha : a = ""
    · subst ha
      dsimp only
      rw [if_pos (show (("" : String) == "") = true from rfl)]
      constructor
      · intro h
        exact (Bool.false_ne_true h).elim
      · rintro ⟨h1, h2⟩
        exact absurd (Option.some.inj h1).symm h2
    · dsimp only
      rw [if_neg (fun h => ha (beq_iff_eq.mp h)), if_neg (show ¬("=" = "*=") by decide),
        if_pos (show ("=" : String) = "=" from rfl)]
      constructor
      · intro h
        have hv : a = value := beq_iff_eq.mp h
        exact ⟨by rw [hv], fun h2 => ha (hv.trans h2)⟩
      · rintro ⟨h1, h2⟩
        exact beq_iff_eq.mpr (Option.some.inj h1)

theorem attPasses_sub_iff (doc : Doc) (name value : String) (el : DPath)
    (hw : value.toList.all isWordChar = true) :
    attPasses doc name value (some "*=") el = true ↔
      ∃ a, getAttributeAt doc el name = some a ∧ a ≠ "" ∧ value.toList <:+: a.toList := by
  unfold attPasses
  cases hatt : getAttributeAt doc el name with
  | none => simp
  | some a =>
    by_cases ha : a = ""
    · subst ha
      dsimp only
      rw [if_pos (show (("" : String) == "") = true from rfl)]
      constructor
      · intro h
        exact (Bool.false_ne_true h).elim
      · rintro ⟨x, h1, h2, h3⟩
        exact absurd (Option.some.inj h1).symm h2
    · dsimp only
      rw [if_neg (fun h => ha (beq_iff_eq.mp h)),
        if_pos (show ("*=" : String) = "*=" from rfl), jsTest_plain a value hw]
      constructor
      · intro h
        exact ⟨a, rfl, ha, h⟩
      · rintro ⟨x, h1, h2, h3⟩
        rw [← Option.some.inj h1] at h3
        exact h3

theorem attPasses_caret_iff (doc : Doc) (name value : String) (el : DPath) :
    attPasses doc name value (some "^=") el = true ↔
      ∃ a, getAttributeAt doc el name = some a ∧ a ≠ "" ∧ value.toList <+: a.toList := by
  unfold attPasses
  cases hatt : getAttributeAt doc el name with
  | none => simp
  | some a =>
    by_cases ha : a = ""
    · subst ha
      dsimp only
      rw [if_pos (show (("" : String) == "") = true from rfl)]
      constructor
      · intro h
        exact (Bool.false_ne_true h).elim
      · rintro ⟨x, h1, h2, h3⟩
        exact absurd (Option.some.inj h1).symm h2
    · dsimp only
      rw [if_neg (fun h => ha (beq_iff_eq.mp h)), if_neg (show ¬("^=" = "*=") by decide),
        if_neg (show ¬("^=" = "=") by decide), if_pos (show ("^=" : String) = "^=" from rfl),
        jsTest_caret a value]
      constructor
      · intro h
        exact ⟨a, rfl, ha, h⟩
      · rintro ⟨x, h1, h2, h3⟩
        rw [← Option.some.inj h1] at h3
        exact h3

theorem attPasses_dollar_iff (doc : Doc) (name value : String) (el : DPath)
    (hw : value.toList.all isWordChar = true) :
    attPasses doc name value (some "$=") el = true ↔
      ∃ a, getAttributeAt doc el name = some a ∧ a ≠ "" ∧ value.toList <:+ a.toList := by
  unfold attPasses
  cases hatt : getAttributeAt doc el name with
  | none => simp
  | some a =>
    by_cases ha : a = ""
    · subst ha
      dsimp only
      rw [if_pos (show (("" : String) == "") = true from rfl)]
      constructor
      · intro h
        exact (Bool.false_ne_true h).elim
      · rintro ⟨x, h1, h2, h3⟩
        exact absurd (Option.some.inj h1).symm h2
    · dsimp only
      rw [if_neg (fun h => ha (beq_iff_eq.mp h)), if_neg (show ¬("$=" = "*=") by decide),
        if_neg (show ¬("$=" = "=") by decide), if_neg (show ¬("$=" = "^=") by decide),
        if_pos (show ("$=" : String) = "$=" from rfl), jsTest_dollar a value hw]
      constructor
      · intro h
        exact ⟨a, rfl, ha, h⟩
      · rintro ⟨x, h1, h2, h3⟩
        rw [← Option.some.inj h1] at h3
        exact h3

theorem attPasses_absent (doc : Doc) (name value : String) (operator : Option String)
    (el : DPath) (h : getAttributeAt doc el name = none) :
    attPasses doc name value operator el = false := by
  unfold attPasses
  rw [h]

theorem attPasses_empty (doc : Doc) (name value : String) (operator : Option String)
    (el : DPath) (h : getAttributeAt doc el name = some "") :
    attPasses doc name value operator el = false := by
  unfold attPasses
  rw [h]
  dsimp only
  rw [if_pos (show (("" : String) == "") = true from rfl)]

/-- C9: an element whose named attribute is present but set to the empty
string is never included by filterByAttribute, for any operator and any
value — including operator = with the empty string as value — because the
falsy check of Dom.js line 282 treats an empty attribute value the same as
an absent attribute. -/
theorem C9_emptyAttributeNeverMatches (doc : Doc) (els : List DPath) (name value : String)
    (operator : Option String) (el : DPath)
    (h : getAttributeAt doc el name = some "") :
    el ∉ filterByAttribute doc els name value operator := by
  intro hmem
  have hp := (mem_filterByAttribute doc els name value operator el).mp hmem
  rw [attPasses_empty doc name value operator el h] at hp
  exact Bool.false_ne_true hp.2

/-- Witness for C9: the paragraph of aDoc carries data set to "", and
filterByAttribute with operator = and value "" does not keep it. -/
theorem C9_witness : [0] ∉ filterByAttribute aDoc [[0]] "data" "" (some "=") :=
  C9_emptyAttributeNeverMatches aDoc [[0]] "data" "" (some "=") [0] (by decide)

/-- C1 counterexample: the paragraph of aDoc has its data attribute equal to
the clause value (both the empty string), so by the claimed truth table for
operator = it should pass, but filterByAttribute drops it: the claimed
equivalence is false at this input. -/
theorem C1_counterexample :
    ¬ (([0] ∈ filterByAttribute aDoc [[0]] "data" "" (some "=")) ↔
        getAttributeAt aDoc [0] "data" = some "") := by
  decide

/-- C1 (amended): the filterByAttribute truth table, for clause values made
of word characters, with the correction the counterexample forces: every
operator case additionally requires the attribute value to be truthy
(non-empty), an empty attribute value being treated as absent.  With no
operator an element of the set passes iff it has the attribute set to a
non-empty value; = tests string equality; *= substring containment;
^= starts-with; $= ends-with; an element lacking the attribute never
passes, for any operator. -/
theorem C1_filterByAttribute_truthTable
    (doc : Doc) (els : List DPath) (el : DPath) (name value : String)
    (hel : el ∈ els) (hw : value.toList.all isWordChar = true) :
    (el ∈ filterByAttribute doc els name value none ↔
      ∃ a, getAttributeAt doc el name = some a ∧ a ≠ "")
    ∧ (el ∈ filterByAttribute doc els name value (some "=") ↔
      getAttributeAt doc el name = some value ∧ value ≠ "")
    ∧ (el ∈ filterByAttribute doc els name value (some "*=") ↔
      ∃ a, getAttributeAt doc el name = some a ∧ a ≠ "" ∧ value.toList <:+: a.toList)
    ∧ (el ∈ filterByAttribute doc els name value (some "^=") ↔
      ∃ a, getAttributeAt doc el name = some a ∧ a ≠ "" ∧ value.toList <+: a.toList)
    ∧ (el ∈ filterByAttribute doc els name value (some "$=") ↔
      ∃ a, getAttributeAt doc el name = some a ∧ a ≠ "" ∧ value.toList <:+ a.toList)
    ∧ (∀ operator, getAttributeAt doc el name = none →
        el ∉ filterByAttribute doc els name value operator) := by
  refine ⟨?_, ?_, ?_, ?_, ?_, ?_⟩
  · rw [mem_filterByAttribute, attPasses_none_iff]
    simp [hel]
  · rw [mem_filterByAttribute, attPasses_eq_iff]
    simp [hel]
  · rw [mem_filterByAttribute, attPasses_sub_iff doc name value el hw]
    simp [hel]
  · rw [mem_filterByAttribute, attPasses_caret_iff]
    simp [hel]
  · rw [mem_filterByAttribute, attPasses_dollar_iff doc name value el hw]
    simp [hel]
  · intro operator hnone hmem
    have hp := (mem_filterByAttribute doc els name value operator el).mp hmem
    rw [attPasses_absent doc name value operator el hnone] at hp
    exact Bool.false_ne_true hp.2

/-- Witness for C1 (amended) at the anchor of wDoc, whose href is "https":
the starts-with operator keeps it for value "http". -/
theorem C1_truthTable_witness :
    [0, 0] ∈ filterByAttribute wDoc [[0, 0]] "href" "http" (some "^=") :=
  ((C1_filterByAttribute_truthTable wDoc [[0, 0]] [0, 0] "href" "http"
      (by decide) (by decide)).2.2.2.1).mpr
    ⟨"https", by decide, by decide, ⟨['s'], by decide⟩⟩

/-- C5: getElement returns exactly the element at index 0 of the
getElementsBySelector result over the same selector and scope, and none
when that result set is empty (Dom.js line 169). -/
theorem C5_getElement_firstOfQueryAll (doc : Doc) (self : DPath) (selector : String) :
    getElement doc self selector = (getElementsBySelector doc self selector).head?
    ∧ (getElementsBySelector doc self selector = [] →
        getElement doc self selector = none) := by
  refine ⟨rfl, fun h => ?_⟩
  unfold getElement
  rw [h]
  rfl

/-- Witness for C5: on the empty document every query is empty and
getElement returns none; on wDoc the head of the result is returned. -/
theorem C5_witness :
    getElement docEmpty [] "div" = none
    ∧ getElement wDoc [] "p" = (getElementsBySelector wDoc [] "p").head? :=
  ⟨(C5_getElement_firstOfQueryAll docEmpty [] "div").2 (by decide),
   (C5_getElement_firstOfQueryAll wDoc [] "p").1⟩

/-- C7: getElementsBySelector splits the selector string on commas,
evaluates each compound selector independently against the same scope via
getElements, and concatenates the result sets in left-to-right order; no
deduplication happens — on dupDoc the selector "p,p" returns the paragraph
twice. -/
theorem C7_commaUnion (doc : Doc) (self : DPath) (selector : String) :
    getElementsBySelector doc self selector
      = ((splitOnChar ',' selector).map (getElements doc self)).flatten
    ∧ getElementsBySelector dupDoc [] "p,p" = [[0], [0]] := by
  constructor
  · unfold getElementsBySelector
    rw [foldl_append_flatten, List.nil_append]
  · decide

/-- C2: a token of a compound selector that the selector regex rejects is
skipped entirely — it neither narrows the candidate set nor errors — and in
particular "div a[bad" queries exactly as "div" does, over any document and
scope. -/
theorem C2_malformedTokenSkipped (doc : Doc) (self : DPath) (filters : List DPath)
    (i : Nat) (tok : String) (h : parseToken tok = none) :
    processToken doc self filters i tok = filters
    ∧ getElementsBySelector doc self "div a[bad" = getElementsBySelector doc self "div" := by
  constructor
  · unfold processToken
    rw [h]
  · rfl

/-- Witness for C2: the malformed token "a[bad" leaves a concrete candidate
set unchanged and the two selectors agree on wDoc. -/
theorem C2_witness :
    processToken wDoc [] [[0]] 1 "a[bad" = [[0]]
    ∧ getElementsBySelector wDoc [] "div a[bad" = getElementsBySelector wDoc [] "div" :=
  C2_malformedTokenSkipped wDoc [] [[0]] 1 "a[bad" (by decide)

theorem getElementsByTagName_not_self (doc : Doc) (el : DPath) (tagName : String) :
    el ∉ getElementsByTagName doc el tagName := by
  intro h
  unfold getElementsByTagName at h
  rw [List.mem_map] at h
  obtain ⟨n, hn, hpath⟩ := h
  rw [List.mem_filter] at hn
  have hcond := hn.2
  simp only [Bool.and_eq_true, Bool.not_eq_true', beq_eq_false_iff_ne] at hcond
  exact hcond.1.2 hpath

/-- C3 counterexample: on dDoc the query "div" returns both nested divs;
feeding that very result set to filterByTagName with tag div returns the
inner div, which is itself an input element of the set — so an input
element can be included in the output, against the claim that an input
element is never included. -/
theorem C3_counterexample :
    getElements dDoc [] "div" = [[0], [0, 0]]
    ∧ [0, 0] ∈ ([[0], [0, 0]] : List DPath)
    ∧ [0, 0] ∈ filterByTagName dDoc [[0], [0, 0]] "div" := by
  decide

/-- C3 (amended): filterByTagName returns, for each element of the set in
order, all of that element's descendants with the given tag name,
concatenated (a re-expansion, not a same-set filter); no element's own
expansion contains the element itself, so an input element appears in the
output only as a descendant of another input element. -/
theorem C3_filterByTagName_reExpansion (doc : Doc) (els : List DPath) (tagName : String)
    (el : DPath) :
    filterByTagName doc els tagName
      = (els.map (fun e => getElementsByTagName doc e tagName)).flatten
    ∧ el ∉ getElementsByTagName doc el tagName :=
  ⟨filterByTagName_eq_flatten doc els tagName, getElementsByTagName_not_self doc el tagName⟩

/-- Witness for C3 (amended) on the nested-div document. -/
theorem C3_amended_witness :
    filterByTagName dDoc [[0], [0, 0]] "div"
      = ([[0], [0, 0]].map (fun e => getElementsByTagName dDoc e "div")).flatten
    ∧ [0] ∉ getElementsByTagName dDoc [0] "div" :=
  C3_filterByTagName_reExpansion dDoc [[0], [0, 0]] "div" [0]

theorem store_frame (st : ArrStore) (a : List DPath) (r : Nat) (hr : r < st.length) :
    (st ++ [a])[r]? = st[r]? ∧ st.length ≠ r ∧ (st ++ [a])[st.length]? = some a := by
  refine ⟨?_, ne_of_gt hr, List.getElem?_concat_length st a⟩
  rw [List.getElem?_append, if_pos hr]

/-- C8: each of the four result-set filter operations, run over the array
store, returns a newly allocated array — the returned reference differs
from the receiver reference and holds exactly the filtered content — while
the receiver array's element sequence is left unchanged. -/
theorem C8_filtersFreshAndFrame (doc : Doc) (st : ArrStore) (r : Nat)
    (idv className tagName name value : String) (operator : Option String)
    (hr : r < st.length) :
    ((filterByIdH doc st r idv).1[r]? = st[r]?
      ∧ (filterByIdH doc st r idv).2 ≠ r
      ∧ (filterByIdH doc st r idv).1[(filterByIdH doc st r idv).2]?
          = some (filterById doc (st.getD r []) idv))
    ∧ ((filterByClassNameH doc st r className).1[r]? = st[r]?
      ∧ (filterByClassNameH doc st r className).2 ≠ r
      ∧ (filterByClassNameH doc st r className).1[(filterByClassNameH doc st r className).2]?
          = some (filterByClassName doc (st.getD r []) className))
    ∧ ((filterByTagNameH doc st r tagName).1[r]? = st[r]?
      ∧ (filterByTagNameH doc st r tagName).2 ≠ r
      ∧ (filterByTagNameH doc st r tagName).1[(filterByTagNameH doc st r tagName).2]?
          = some (filterByTagName doc (st.getD r []) tagName))
    ∧ ((filterByAttributeH doc st r name value operator).1[r]? = st[r]?
      ∧ (filterByAttributeH doc st r name value operator).2 ≠ r
      ∧ (filterByAttributeH doc st r name value operator).1[
            (filterByAttributeH doc st r name value operator).2]?
          = some (filterByAttribute doc (st.getD r []) name value operator)) :=
  ⟨store_frame st _ r hr, store_frame st _ r hr, store_frame st _ r hr, store_frame st _ r hr⟩

/-- Witness for C8 on a one-array store. -/
theorem C8_witness :
    (filterByIdH dupDoc [[[0]]] 0 "q").1[0]? = some [[0]]
    ∧ (filterByIdH dupDoc [[[0]]] 0 "q").2 ≠ 0 := by
  have h := C8_filtersFreshAndFrame dupDoc [[[0]]] 0 "q" "c" "t" "n" "v" none (by decide)
  exact ⟨h.1.1.trans (by decide), h.1.2.1⟩

/-- A fresh element handler state. -/
def st0 : ElemState := { props := [], listeners := [], initRuns := [] }

theorem foldl_actionKeyStep : ∀ (acts : List (String × Nat)) (s : ElemState),
    acts.foldl actionKeyStep s =
      { props := (onAssignments acts).reverse ++ s.props,
        listeners := s.listeners ++ eventRegistrations acts,
        initRuns := s.initRuns }
  | [], s => by
    simp [onAssignments, eventRegistrations]
  | kv :: rest, s => by
    rw [List.foldl_cons, foldl_actionKeyStep rest (actionKeyStep s kv)]
    unfold actionKeyStep onAssignments eventRegistrations
    by_cases hOn : testOnPattern kv.1 = true
    · simp [hOn, List.filter_cons, List.filterMap_cons]
    · cases hEvt : eventCapture kv.1 with
      | some e => simp [hOn, hEvt, addEvent, List.filter_cons, List.filterMap_cons]
      | none => simp [hOn, hEvt, List.filter_cons, List.filterMap_cons]

/-- One action call on one element, in closed form: the properties gain the
handlers object's on-entries (most recent first, so lookup sees the newest
binding), the listeners gain exactly its captured event registrations in
order, and the initialize runs gain its initialize invocation when there is
one. -/
theorem actionStep_eq (acts : List (String × Nat)) (st : ElemState) :
    actionStep acts st =
      { props := (onAssignments acts).reverse ++ st.props,
        listeners := st.listeners ++ eventRegistrations acts,
        initRuns := st.initRuns ++ initInvocations acts } := by
  unfold actionStep initInvocations
  dsimp only
  cases hI : acts.lookup "initialize" with
  | some f => rw [foldl_actionKeyStep]
  | none => rw [foldl_actionKeyStep, List.append_nil]

/-- C4: for every handlers object, action invokes the initialize handler,
when present, once per element of the set; every key matching the
on-pattern is assigned as a direct property on each element and registers
no listener, so a second action call binding the same key leaves only the
newer handler bound (lookup finds it first); every key matching the
event-pattern registers an additional listener for its captured event name
and assigns no property, so two action calls leave both handlers
registered; a key matching neither pattern (other than initialize) leaves
the element state entirely unchanged.  In full generality one call turns
the property list into the object's on-entries prepended to the old
properties and appends exactly the object's captured event registrations
to the listeners. -/
theorem C4_actionDispatch (acts : List (String × Nat)) (sts : List ElemState)
    (st : ElemState) (k e : String) (f f1 f2 : Nat) :
    (acts.lookup "initialize" = some f →
      (actionAll acts sts).map ElemState.initRuns
        = sts.map (fun s => s.initRuns ++ [f]))
    ∧ (testOnPattern k = true →
      (actionStep [(k, f1)] st).props = (k, f1) :: st.props
      ∧ (actionStep [(k, f1)] st).listeners = st.listeners
      ∧ (actionStep [(k, f2)] (actionStep [(k, f1)] st)).props.lookup k = some f2)
    ∧ (testOnPattern k = false → eventCapture k = some e →
      (actionStep [(k, f1)] st).listeners = st.listeners ++ [(e, f1)]
      ∧ (actionStep [(k, f1)] st).props = st.props
      ∧ (actionStep [(k, f2)] (actionStep [(k, f1)] st)).listeners
          = st.listeners ++ [(e, f1), (e, f2)])
    ∧ (k ≠ "initialize" → testOnPattern k = false → eventCapture k = none →
      actionStep [(k, f1)] st = st)
    ∧ (actionStep acts st).props = (onAssignments acts).reverse ++ st.props
    ∧ (actionStep acts st).listeners = st.listeners ++ eventRegistrations acts := by
  refine ⟨?_, ?_, ?_, ?_, ?_, ?_⟩
  · intro hI
    unfold actionAll
    rw [List.map_map]
    congr 1
    funext s
    show (actionStep acts s).initRuns = s.initRuns ++ [f]
    rw [actionStep_eq]
    show s.initRuns ++ initInvocations acts = s.initRuns ++ [f]
    unfold initInvocations
    rw [hI]
  · intro hOn
    have h1 : (actionStep [(k, f1)] st).props = (k, f1) :: st.props := by
      rw [actionStep_eq]
      simp [onAssignments, hOn]
    have h1L : (actionStep [(k, f1)] st).listeners = st.listeners := by
      rw [actionStep_eq]
      simp [eventRegistrations, hOn]
    have h2 : (actionStep [(k, f2)] (actionStep [(k, f1)] st)).props
        = (k, f2) :: (actionStep [(k, f1)] st).props := by
      rw [actionStep_eq]
      simp [onAssignments, hOn]
    refine ⟨h1, h1L, ?_⟩
    rw [h2]
    simp [List.lookup]
  · intro hOn hEvt
    have h1L : (actionStep [(k, f1)] st).listeners = st.listeners ++ [(e, f1)] := by
      rw [actionStep_eq]
      simp [eventRegistrations, hOn, hEvt]
    have h1P : (actionStep [(k, f1)] st).props = st.props := by
      rw [actionStep_eq]
      simp [onAssignments, hOn]
    have h2L : (actionStep [(k, f2)] (actionStep [(k, f1)] st)).listeners
        = (actionStep [(k, f1)] st).listeners ++ [(e, f2)] := by
      rw [actionStep_eq]
      simp [eventRegistrations, hOn, hEvt]
    refine ⟨h1L, h1P, ?_⟩
    rw [h2L, h1L, List.append_assoc]
    rfl
  · intro hk hOn hEvt
    have hki : ("initialize" == k) = false := beq_eq_false_iff_ne.mpr (Ne.symm hk)
    rw [actionStep_eq]
    simp [onAssignments, eventRegistrations, initInvocations, List.lookup, hki, hOn, hEvt]
  · rw [actionStep_eq]
  · rw [actionStep_eq]

/-- Witness for C4: an initialize-only object run over one element; the
on-key "onfocus" bound twice keeps only handler 2; the event-key
"hoverevent" (captured event "hover") bound twice keeps both handlers; the
inert key "misc" changes nothing. -/
theorem C4_witness :
    (actionAll [("initialize", 3)] [st0]).map ElemState.initRuns = [[3]]
    ∧ (actionStep [("onfocus", 2)] (actionStep [("onfocus", 1)] st0)).props.lookup "onfocus"
        = some 2
    ∧ (actionStep [("hoverevent", 2)] (actionStep [("hoverevent", 1)] st0)).listeners
        = [("hover", 1), ("hover", 2)]
    ∧ actionStep [("misc", 9)] st0 = st0 := by
  refine ⟨?_, ?_, ?_, ?_⟩
  · exact ((C4_actionDispatch [("initialize", 3)] [st0] st0 "x" "y" 3 0 0).1
      (by decide)).trans (by decide)
  · exact ((C4_actionDispatch [] [] st0 "onfocus" "y" 0 1 2).2.1 (by decide)).2.2
  · exact (((C4_actionDispatch [] [] st0 "hoverevent" "hover" 0 1 2).2.2.1 (by decide)
      (by decide)).2.2).trans (by decide)
  · exact (C4_actionDispatch [] [] st0 "misc" "y" 0 9 0).2.2.2.1 (by decide) (by decide)
      (by decide)

/-- C10: a key that matches both dispatch patterns of action — starting
with on plus a word character and ending in event, such as onclickevent —
is assigned as a direct property only; no event listener is registered and
no initialize run happens, because the on-prefix test of Dom.js line 246
takes precedence over the event-suffix test of line 247. -/
theorem C10_onPrefixPrecedence (st : ElemState) (f : Nat) (k e : String)
    (hOn : testOnPattern k = true) (_hEvt : eventCapture k = some e) :
    (actionStep [(k, f)] st).props = (k, f) :: st.props
    ∧ (actionStep [(k, f)] st).listeners = st.listeners
    ∧ (actionStep [(k, f)] st).initRuns = st.initRuns := by
  have hki : ("initialize" == k) = false := by
    rw [beq_eq_false_iff_ne]
    intro hkeq
    rw [← hkeq] at hOn
    exact absurd hOn (by decide)
  simp [actionStep, actionKeyStep, List.lookup, hki, hOn]

/-- Witness for C10 at the key "onclickevent", which matches both patterns
(its event capture is "onclick"). -/
theorem C10_witness :
    (actionStep [("onclickevent", 7)] st0).props = [("onclickevent", 7)]
    ∧ (actionStep [("onclickevent", 7)] st0).listeners = st0.listeners
    ∧ (actionStep [("onclickevent", 7)] st0).initRuns = st0.initRuns := by
  have h := C10_onPrefixPrecedence st0 7 "onclickevent" "onclick" (by decide) (by decide)
  exact ⟨h.1, h.2.1, h.2.2⟩

theorem revChain_iff (selfR : List Nat) : ∀ (pR : List Nat),
    revChain selfR pR = true ↔ selfR <:+ pR
  | [] => by
    simp only [revChain, List.suffix_nil]
    constructor
    · intro h
      exact (beq_iff_eq.mp h).symm
    · intro h
      exact beq_iff_eq.mpr h.symm
  | x :: rest => by
    simp only [revChain, Bool.or_eq_true, beq_iff_eq, revChain_iff selfR rest,
      List.suffix_cons_iff]
    constructor
    · rintro (h | h)
      · exact Or.inl h.symm
      · exact Or.inr h
    · rintro (h | h)
      · exact Or.inl h.symm
      · exact Or.inr h

/-- The parent walk reaches self from p exactly when self is an ancestor-or-
self of p, that is, when the path self is a prefix of the path p. -/
theorem chainHits_iff (self p : DPath) : chainHits self p = true ↔ self <+: p := by
  unfold chainHits
  rw [revChain_iff]
  exact List.reverse_suffix

theorem getElementByIdIn_eq (doc : Doc) (self : DPath) (id : String) :
    getElementByIdIn doc self id =
      match documentGetElementById doc id with
      | none => none
      | some el => if chainHits self el.dropLast then some el else none := rfl

/-- When the scoped id lookup succeeds, the element found is the one the
document-wide id lookup finds, and it lies strictly inside the scope
element's subtree: the scope path is a proper prefix of its path. -/
theorem getElementByIdIn_scoped (doc : Doc) (self : DPath) (id : String) (el : DPath)
    (hwf : doc.all (fun n => !(n.path == [])) = true)
    (h : getElementByIdIn doc self id = some el) :
    documentGetElementById doc id = some el ∧ self <+: el ∧ self ≠ el := by
  rw [getElementByIdIn_eq] at h
  cases hd : documentGetElementById doc id with
  | none =>
    rw [hd] at h
    dsimp only at h
    exact Option.noConfusion h
  | some q =>
    rw [hd] at h
    dsimp only at h
    by_cases hc : chainHits self q.dropLast = true
    · rw [if_pos hc] at h
      have hq : q = el := Option.some.inj h
      subst hq
      have hne : q ≠ [] := by
        have hmem : ∃ n, doc.find? (fun n => n.id == id) = some n ∧ n.path = q := by
          unfold documentGetElementById at hd
          cases hf : doc.find? (fun n => n.id == id) with
          | none =>
            rw [hf] at hd
            exact Option.noConfusion hd
          | some n =>
            rw [hf] at hd
            exact ⟨n, rfl, Option.some.inj hd⟩
        obtain ⟨n, hfind, hpath⟩ := hmem
        have hn : n ∈ doc := List.mem_of_find?_eq_some hfind
        have hne0 := List.all_eq_true.mp hwf n hn
        simp only [Bool.not_eq_true', beq_eq_false_iff_ne] at hne0
        rw [← hpath]
        exact hne0
      have hpre : self <+: q.dropLast := (chainHits_iff self q.dropLast).mp hc
      refine ⟨rfl, hpre.trans (List.dropLast_prefix q), ?_⟩
      intro hseq
      rw [hseq] at hpre
      have hlen := hpre.length_le
      rw [List.length_dropLast] at hlen
      have hpos : 0 < q.length := List.length_pos.mpr hne
      omega
    · rw [if_neg hc] at h
      exact Option.noConfusion h

/-- C6: for the first token of a compound selector, when its clause carries
an id the engine resolves it by the single scoped id lookup of
Element.getElementById — the element found, when any, is the one the
document-wide id lookup returns and lies strictly inside the scope
element's subtree — and the token contributes no elements when the lookup
fails or when the found element's tag differs from the clause tag unless
that tag is "*"; when the clause carries no id, the token collects all
descendants of the scope matching the clause's tag name, then applies the
class and attribute narrowing. -/
theorem C6_firstTokenIdLookup (doc : Doc) (self : DPath) (tok : String) (b : Clause)
    (filters : List DPath) (pid : String) (el : DPath)
    (hwf : doc.all (fun n => !(n.path == [])) = true)
    (hb : parseToken tok = some b) :
    (b.id = some pid → getElementByIdIn doc self pid = none →
      processToken doc self filters 0 tok = filters)
    ∧ (b.id = some pid → getElementByIdIn doc self pid = some el →
      (processToken doc self filters 0 tok =
        if b.tag ≠ "*" ∧ tagAt doc el ≠ b.tag then filters
        else applyClassAttr doc b [el])
      ∧ documentGetElementById doc pid = some el ∧ self <+: el ∧ self ≠ el)
    ∧ (b.id = none →
      processToken doc self filters 0 tok
        = applyClassAttr doc b (getElementsByTagName doc self b.tag)) := by
  have hstep : processToken doc self filters 0 tok =
      (match b.id with
       | some pid =>
         match getElementByIdIn doc self pid with
         | none => filters
         | some el =>
           if b.tag ≠ "*" ∧ tagAt doc el ≠ b.tag then filters
           else applyClassAttr doc b [el]
       | none => applyClassAttr doc b (getElementsByTagName doc self b.tag)) := by
    unfold processToken
    rw [hb]
    dsimp only
    rw [if_pos (show (0 : Nat) = 0 from rfl)]
  refine ⟨?_, ?_, ?_⟩
  · intro hid hnone
    rw [hstep, hid]
    dsimp only
    rw [hnone]
  · intro hid hsome
    refine ⟨by rw [hstep, hid]; dsimp only; rw [hsome], ?_⟩
    exact getElementByIdIn_scoped doc self pid el hwf hsome
  · intro hid
    rw [hstep, hid]

/-- Witness for C6 on wDoc: the first token "div#x" resolves to the div at
path [0], found by the document-wide lookup, strictly inside the document
scope. -/
theorem C6_witness :
    processToken wDoc [] [] 0 "div#x" = [[0]]
    ∧ documentGetElementById wDoc "x" = some [0]
    ∧ ([] : DPath) <+: [0] ∧ ([] : DPath) ≠ [0] := by
  have h := C6_firstTokenIdLookup wDoc [] "div#x"
      { tag := "div", id := some "x", cls := none, attr := none, op := none, value := none }
      [] "x" [0] (by decide) (by decide)
  have h2 := h.2.1 rfl (by decide)
  exact ⟨h2.1.trans (by decide), h2.2.1, h2.2.2.1, h2.2.2.2⟩
